import Mathlib

/-!
Shallow embedding of the core of the ArtistRoyaltyTracker repository:
the dataset loader (`src/utils/dataset_loader.py`), the matching engine
(`src/utils/analysis_engine.py`) and the catalog key-cleaning step of the
catalog collaborator (`src/utils/spotify_handler.py`).

Strings are modelled as `List Char`; pandas `NaN`/missing values as
`Option`; Python floats as exact rationals.  Whitespace and case
conversion are modelled with Lean's ASCII `Char.isWhitespace` /
`Char.toUpper`, matching the ASCII subset the repository's data uses.
-/

namespace ART

/-- Strings of the embedded program: lists of characters, compared byte-wise. -/
abbrev Str := List Char

/-- Python `str.strip()`: drop whitespace from both ends. -/
def stripStr (s : Str) : Str :=
  ((s.dropWhile Char.isWhitespace).reverse.dropWhile Char.isWhitespace).reverse

/-- Python `str.upper()` (ASCII model). -/
def upperStr (s : Str) : Str := s.map Char.toUpper

/-- Python `str.lower()` (ASCII model). -/
def lowerStr (s : Str) : Str := s.map Char.toLower

/-- Key Normalizer of the loader (`dataset_loader.load`, lines 132-137):
`chunk[isrc_col].fillna('').str.strip().str.upper()`.  `none` models a
missing (`NaN`) value. -/
def normalizeKey (v : Option Str) : Str := upperStr (stripStr (v.getD []))

/-- Catalog-side key cleaning (`spotify_handler.get_artist_catalog`,
lines 250-256): `astype(str).str.strip().str.upper().replace('', pd.NA)`.
The result is `none` exactly when the cleaned key is empty. -/
def cleanIsrc (raw : Str) : Option Str :=
  let s := upperStr (stripStr raw)
  if s.isEmpty then none else some s

/-- Does `pre` occur at the head of `l`? (helper for the substring test). -/
def leadsStr : Str → Str → Bool
  | [], _ => true
  | _ :: _, [] => false
  | a :: as, b :: bs => a == b && leadsStr as bs

/-- Python's `needle in hay` substring test on strings. -/
def subStr (needle : Str) : Str → Bool
  | [] => needle.isEmpty
  | c :: cs => leadsStr needle (c :: cs) || subStr needle cs

/-- Default `ESSENTIAL_KEYWORDS` of `config/settings.py`. -/
def ESSENTIAL_KEYWORDS : List Str :=
  ["isrc", "title", "artist", "work", "share", "right", "resource", "duration"].map
    String.toList

/-- Column Selector (`DatasetLoader._get_essential_columns`): with pruning off
return all columns; otherwise keep the columns whose lowercased name contains
some keyword, falling back to the first 10 columns when none matches. -/
def getEssentialColumns (optimizeColumns : Bool) (keywords : List Str)
    (allColumns : List Str) : List Str :=
  if !optimizeColumns then allColumns
  else
    let essentialCols :=
      allColumns.filter (fun col => keywords.any (fun kw => subStr kw (lowerStr col)))
    if essentialCols.isEmpty then allColumns.take 10 else essentialCols

/-- Key-column identification (`DatasetLoader._identify_isrc_column`): the
first column whose lowercased name contains `"isrc"`; `none` when there is
no such column. -/
def findIsrcColumn (columns : List Str) : Option Str :=
  (columns.filter (fun col => subStr ("isrc".toList) (lowerStr col))).head?

/-- One raw line of the TSV reference dataset, as seen by the chunked reader:
either a row that parses under the selected column projection into cells
(column name, optional value; `none` models `NaN`), or a line the pandas
tokenizer rejects (e.g. a wrong field count), which raises during chunk
iteration. -/
inductive RawRow where
  | ok (cells : List (Str × Option Str))
  | malformed
deriving DecidableEq

/-- Is it a line the reader cannot parse? -/
def RawRow.isMalformed : RawRow → Bool
  | .ok _ => false
  | .malformed => true

/-- Cell list of a parsed row (`none` for a malformed line). -/
def RawRow.cells? : RawRow → Option (List (Str × Option Str))
  | .ok cs => some cs
  | .malformed => none

/-- Projection to the selected columns (pandas `usecols=essential_cols`). -/
def projectCells (ess : List Str) (cells : List (Str × Option Str)) :
    List (Str × Option Str) :=
  cells.filter (fun c => decide (c.1 ∈ ess))

/-- Value of the column named `col` in a cell list (`row[col]`, `NaN` ↦ `none`). -/
def getCell (cells : List (Str × Option Str)) (col : Str) : Option Str :=
  (List.lookup col cells).join

/-- One row retained by the loader: its projected cells plus the derived
`ISRC_CLEAN` column. -/
structure ProcRow where
  cells : List (Str × Option Str)
  cleanKey : Str
deriving DecidableEq

/-- The finalized reference dataframe: the projected column list (the
`ISRC_CLEAN` column is additionally present and serves as the index) and the
retained rows in load order. -/
structure LoadedDf where
  cols : List Str
  rows : List ProcRow
deriving DecidableEq

/-- Configuration constants of `config/settings.py` used by the loader. -/
structure LoadConfig where
  chunkSize : Nat
  optimizeColumns : Bool
  filterNoIsrc : Bool
  keywords : List Str
deriving DecidableEq

/-- Outcome of `DatasetLoader.load` on an existing file: `failure` models
`return False` with `self.df` left unset; `degraded` models the
no-key-column branch (whole file loaded, no `ISRC_CLEAN` index, no claim
inspects its contents); `loaded` models the indexed success path. -/
inductive LoadResult where
  | failure
  | degraded
  | loaded (df : LoadedDf)
deriving DecidableEq

/-- Split a list into consecutive chunks of size `n` (pandas `chunksize=n`;
fuel-based structural recursion, `fuel ≥ l.length` and `n > 0` make it total). -/
def chunksOfAux (n : Nat) : Nat → List α → List (List α)
  | 0, _ => []
  | _ + 1, [] => []
  | fuel + 1, l@(_ :: _) => l.take n :: chunksOfAux n fuel (l.drop n)

/-- The chunk stream `pd.read_csv(..., chunksize=n)` yields for row list `l`. -/
def chunksOf (n : Nat) (l : List α) : List (List α) := chunksOfAux n l.length l

/-- Per-chunk processing of `DatasetLoader.load` (lines 130-146): compute
`ISRC_CLEAN` for every parsed row and, when the invalid-row filter is on,
drop rows whose clean key is empty. -/
def processRows (filterNoIsrc : Bool) (keyCol : Str) (ess : List Str)
    (rows : List RawRow) : List ProcRow :=
  let cleaned := (rows.filterMap RawRow.cells?).map (fun cs =>
    let pc := projectCells ess cs
    ProcRow.mk pc (normalizeKey (getCell pc keyCol)))
  if filterNoIsrc then cleaned.filter (fun p => !p.cleanKey.isEmpty) else cleaned

/-- Name of the derived key column added by the loader. -/
def ISRC_CLEAN : Str := "ISRC_CLEAN".toList

/-- The loader `DatasetLoader.load` on an existing file, given the header and
the raw rows.  Mirrors the source: identify the key column (none ⇒ degraded
wholesale load, `return True`); select essential columns (a projection that
drops the key column makes the subsequent `chunk[isrc_column]` raise, caught
by the blanket `except` ⇒ `False`); a malformed line raises out of the chunk
iterator (pandas `ParserError`), caught ⇒ `False`; chunks surviving the
filter are collected and `pd.concat` of an empty list raises ⇒ `False`;
otherwise the concatenation, indexed by `ISRC_CLEAN`, is the loaded frame. -/
def load (cfg : LoadConfig) (header : List Str) (rows : List RawRow) : LoadResult :=
  match findIsrcColumn header with
  | none =>
    if rows.any RawRow.isMalformed then LoadResult.failure else LoadResult.degraded
  | some keyCol =>
    let ess := getEssentialColumns cfg.optimizeColumns cfg.keywords header
    if !decide (keyCol ∈ ess) then LoadResult.failure
    else if rows.any RawRow.isMalformed then LoadResult.failure
    else
      let processed :=
        ((chunksOf cfg.chunkSize rows).map
          (processRows cfg.filterNoIsrc keyCol ess)).filter (fun c => !c.isEmpty)
      if processed.isEmpty then LoadResult.failure
      else LoadResult.loaded ⟨ess ++ [ISRC_CLEAN], processed.flatten⟩

/-- One track of the external catalog dataframe (`spotify_handler`):
descriptive fields plus the cleaned key column `isrc_clean` (`none` = `pd.NA`). -/
structure CatalogTrack where
  trackName : Str
  albumName : Str
  releaseDate : Str
  isrc : Str
  albumType : Str
  durationMs : Nat
  trackId : Str
  isrcClean : Option Str
deriving DecidableEq

/-- Build a catalog row the way `get_artist_catalog` does: the cleaned key is
`cleanIsrc` of the raw `isrc` field. -/
def mkTrack (trackName albumName releaseDate isrc albumType : Str)
    (durationMs : Nat) (trackId : Str) : CatalogTrack :=
  ⟨trackName, albumName, releaseDate, isrc, albumType, durationMs, trackId,
    cleanIsrc isrc⟩

/-- One output record of the Matcher (`analysis_engine.cross_reference`,
lines 71-86): the seven catalog fields plus the matched reference row's
columns, each renamed with the `unclaimed_` namespace. -/
structure MatchRecord where
  trackName : Str
  albumName : Str
  releaseDate : Str
  isrc : Str
  albumType : Str
  durationMs : Nat
  spotifyTrackId : Str
  unclaimedFields : List (Str × Option Str)
deriving DecidableEq

/-- The seven keys the match record already holds before reference columns are
copied (`col not in match_record` skip list). -/
def reservedNames : List Str :=
  ["track_name", "album_name", "release_date", "isrc", "album_type",
    "duration_ms", "spotify_track_id"].map String.toList

/-- Namespaced reference column name (`'unclaimed_' + col`). -/
def unclaimedCol (c : Str) : Str := "unclaimed_".toList ++ c

/-- Merge one catalog track with one reference row (`cross_reference`,
lines 71-84): copy the catalog fields, then every dataframe column except
`ISRC_CLEAN` and the already-present record keys, prefixed. -/
def mkMatchRecord (cols : List Str) (t : CatalogTrack) (u : ProcRow) : MatchRecord :=
  { trackName := t.trackName
    albumName := t.albumName
    releaseDate := t.releaseDate
    isrc := t.isrc
    albumType := t.albumType
    durationMs := t.durationMs
    spotifyTrackId := t.trackId
    unclaimedFields :=
      (cols.filter (fun c => !decide (c = ISRC_CLEAN) && !decide (c ∈ reservedNames))).map
        (fun c => (unclaimedCol c, getCell u.cells c)) }

/-- All indexed rows holding key `k` (`df_unclaimed.loc[k]`, in load order). -/
def dfLoc (df : LoadedDf) (k : Str) : List ProcRow :=
  df.rows.filter (fun r => decide (r.cleanKey = k))

/-- Matching of one catalog track (`cross_reference`, lines 55-86): tracks
without a key are skipped; otherwise look the key up and, on a hit, merge
with the first stored row for that key. -/
def matchTrack (df : LoadedDf) (t : CatalogTrack) : Option MatchRecord :=
  match t.isrcClean with
  | none => none
  | some k => (dfLoc df k).head?.map (mkMatchRecord df.cols t)

/-- The statistics dict built at `cross_reference` lines 99-105 (the optional
`avg_unclaimed_percentage` entry is not modelled: no claim concerns it).
`matchRate` is a Python float, modelled as an exact rational. -/
structure Stats where
  totalCatalogTracks : Nat
  catalogWithIsrc : Nat
  matchesFound : Nat
  matchRate : ℚ
  uniqueAlbums : Nat
deriving DecidableEq

/-- The Matcher `AnalysisEngine.cross_reference`.  The reference argument is
`none` when no dataframe is loaded (`df_unclaimed is None`); `none` in the
second component of the result models the empty statistics dict `{}` of the
early returns. -/
def cross_reference (catalog : List CatalogTrack) (dfU : Option LoadedDf) :
    List MatchRecord × Option Stats :=
  if catalog.isEmpty then ([], none)
  else
    match dfU with
    | none => ([], none)
    | some df =>
      if df.rows.isEmpty then ([], none)
      else
        let catalogWithIsrc := catalog.filter (fun t => t.isrcClean.isSome)
        if catalogWithIsrc.isEmpty then ([], none)
        else
          let matchList := catalogWithIsrc.filterMap (matchTrack df)
          let totalCatalog := catalogWithIsrc.length
          let stats : Stats :=
            { totalCatalogTracks := catalog.length
              catalogWithIsrc := totalCatalog
              matchesFound := matchList.length
              matchRate :=
                if 0 < totalCatalog then
                  (matchList.length : ℚ) / (totalCatalog : ℚ) * 100
                else 0
              uniqueAlbums := (catalog.map (fun t => t.albumName)).dedup.length }
          (matchList, some stats)

/-- Key search `DatasetLoader.search_isrc`: empty result when nothing is
loaded; otherwise normalize the query with `strip().upper()` and return the
indexed rows for it (the source's membership test before `.loc` returns
exactly these rows, or an empty frame when the key is absent). -/
def search_isrc (odf : Option LoadedDf) (q : Str) : List ProcRow :=
  match odf with
  | none => []
  | some df => dfLoc df (upperStr (stripStr q))

/-! ### Concrete data used to evaluate the development on small inputs -/

/-- Configuration with pruning on and the default keyword list. -/
def cfgW (chunkSize : Nat) (filterNoIsrc : Bool) : LoadConfig :=
  ⟨chunkSize, true, filterNoIsrc, ESSENTIAL_KEYWORDS⟩

/-- Sample key column name. -/
def colIsrc : Str := "isrc".toList

/-- Sample payload column name (matches the `share` keyword). -/
def colShare : Str := "share".toList

/-- Sample two-column header. -/
def headerW : List Str := [colIsrc, colShare]

/-- Sample parsed dataset row with optional key value `k` and share value `v`. -/
def rowW (k : Option String) (v : String) : RawRow :=
  .ok [(colIsrc, k.map String.toList), (colShare, some v.toList)]

/-- Sample retained row as the loader materializes it. -/
def procW (k : Option String) (v : String) (ck : String) : ProcRow :=
  ⟨[(colIsrc, k.map String.toList), (colShare, some v.toList)], ck.toList⟩

/-- Columns of the loaded sample frame. -/
def colsW : List Str := [colIsrc, colShare, ISRC_CLEAN]

/-- Two reference rows sharing the key `XYZ000` (one written with padding and
lower case), as in the duplicate-key scenario of the spec. -/
def rowsDup : List RawRow := [rowW (some "XYZ000") "1", rowW (some " xyz000 ") "2"]

/-- The frame the loader builds from `rowsDup` with the filter on. -/
def dfDup : LoadedDf :=
  ⟨colsW, [procW (some "XYZ000") "1" "XYZ000", procW (some " xyz000 ") "2" "XYZ000"]⟩

/-- A catalog track whose raw key cleans to `XYZ000`. -/
def trackW : CatalogTrack :=
  mkTrack "t".toList "a".toList "2020".toList "xyz000".toList "album".toList 7 "id1".toList

/-- A catalog track whose raw key is whitespace only, so its cleaned key is `pd.NA`. -/
def trackNoKey : CatalogTrack :=
  mkTrack "u".toList "b".toList "2021".toList "  ".toList "album".toList 8 "id2".toList

/-- One dataset row whose key cell is missing (`NaN`). -/
def rowsNoKey : List RawRow := [rowW none "9"]

/-- The frame the loader builds from `rowsNoKey` with the filter off: its only
row has an empty clean key. -/
def dfNoKey : LoadedDf := ⟨colsW, [procW none "9" ""]⟩

/-- The all-zero statistics record (what "zero-valued RunStatistics" denotes). -/
def zeroStats : Stats := ⟨0, 0, 0, 0, 0⟩

/-! ### Character-level lemmas -/

theorem charEq_iff_toNat {c d : Char} : c = d ↔ c.toNat = d.toNat :=
  ⟨fun h => congrArg Char.toNat h,
   fun h => Char.eq_of_val_eq (UInt32.toNat.inj h)⟩

theorem toNat_ofNat_valid (n : Nat) (h : n.isValidChar) : (Char.ofNat n).toNat = n := by
  rw [Char.ofNat, dif_pos h]
  rfl

theorem toUpper_def (c : Char) :
    Char.toUpper c = if c.toNat ≥ 97 ∧ c.toNat ≤ 122 then Char.ofNat (c.toNat - 32) else c :=
  rfl

theorem toNat_toUpper (c : Char) :
    (Char.toUpper c).toNat =
      if 97 ≤ c.toNat ∧ c.toNat ≤ 122 then c.toNat - 32 else c.toNat := by
  rw [toUpper_def]
  split
  · rename_i h
    exact toNat_ofNat_valid _ (Or.inl (by omega))
  · rfl

theorem toUpper_toUpper (c : Char) : c.toUpper.toUpper = c.toUpper := by
  have h := toNat_toUpper c
  rw [toUpper_def c.toUpper]
  split
  · rename_i hc
    exfalso
    split at h <;> omega
  · rfl

theorem not_ws_of_toNat (c : Char)
    (h : c.toNat ≠ 32 ∧ c.toNat ≠ 9 ∧ c.toNat ≠ 13 ∧ c.toNat ≠ 10) :
    c.isWhitespace = false := by
  simp only [Char.isWhitespace, Bool.or_eq_false_iff, decide_eq_false_iff_not]
  refine ⟨⟨⟨?_, ?_⟩, ?_⟩, ?_⟩ <;> intro hc <;> subst hc
  · exact h.1 rfl
  · exact h.2.1 rfl
  · exact h.2.2.1 rfl
  · exact h.2.2.2 rfl

theorem ws_toUpper (c : Char) : (Char.toUpper c).isWhitespace = c.isWhitespace := by
  rw [toUpper_def]
  split
  · rename_i h
    have hv : (Char.ofNat (c.toNat - 32)).toNat = c.toNat - 32 :=
      toNat_ofNat_valid _ (Or.inl (by omega))
    rw [not_ws_of_toNat _ (by omega), not_ws_of_toNat _ (by omega)]
  · rfl

/-! ### String-level lemmas about strip and upper -/

theorem stripStr_eq (s : Str) :
    stripStr s = List.rdropWhile Char.isWhitespace (s.dropWhile Char.isWhitespace) := by
  simp [stripStr, List.rdropWhile]

theorem upperStr_upperStr (s : Str) : upperStr (upperStr s) = upperStr s := by
  simp only [upperStr, List.map_map]
  exact List.map_congr_left (fun c _ => toUpper_toUpper c)

theorem dropWhile_ws_upperStr (s : Str) :
    (upperStr s).dropWhile Char.isWhitespace =
      upperStr (s.dropWhile Char.isWhitespace) := by
  simp only [upperStr, List.dropWhile_map]
  rw [show Char.isWhitespace ∘ Char.toUpper = Char.isWhitespace from funext ws_toUpper]

theorem rdropWhile_ws_upperStr (s : Str) :
    List.rdropWhile Char.isWhitespace (upperStr s) =
      upperStr (List.rdropWhile Char.isWhitespace s) := by
  simp only [List.rdropWhile, upperStr, ← List.map_reverse, List.dropWhile_map]
  rw [show Char.isWhitespace ∘ Char.toUpper = Char.isWhitespace from funext ws_toUpper,
    List.map_reverse]

theorem stripStr_upperStr (s : Str) : stripStr (upperStr s) = upperStr (stripStr s) := by
  rw [stripStr_eq, stripStr_eq, dropWhile_ws_upperStr, rdropWhile_ws_upperStr]

theorem dropWhile_rdropWhile_fixed (p : α → Bool) (l : List α)
    (hl : l.dropWhile p = l) : (List.rdropWhile p l).dropWhile p = List.rdropWhile p l := by
  rcases List.rdropWhile_prefix p l with ⟨t, ht⟩
  cases hr : List.rdropWhile p l with
  | nil => rfl
  | cons a as =>
    rw [List.dropWhile_cons]
    have hha : l.head? = some a := by
      rw [← ht, hr]
      rfl
    have hpa : p a = false := by
      have h0 := List.head?_dropWhile_not p l
      rw [hl, hha] at h0
      exact h0
    simp [hpa]

theorem stripStr_stripStr (s : Str) : stripStr (stripStr s) = stripStr s := by
  rw [stripStr_eq, stripStr_eq s,
    dropWhile_rdropWhile_fixed _ _ (List.dropWhile_idempotent _ _),
    List.rdropWhile_idempotent]

theorem rdropWhile_append_all (p : α → Bool) (l w : List α) (hw : ∀ a ∈ w, p a) :
    List.rdropWhile p (l ++ w) = List.rdropWhile p l := by
  unfold List.rdropWhile
  rw [List.reverse_append, List.dropWhile_append_of_pos (by simpa using hw)]

theorem stripStr_pad (s w₁ w₂ : Str)
    (h₁ : ∀ a ∈ w₁, a.isWhitespace)
    (h₂ : ∀ a ∈ w₂, a.isWhitespace) :
    stripStr (w₁ ++ s ++ w₂) = stripStr s := by
  rw [stripStr_eq, stripStr_eq s, List.append_assoc,
    List.dropWhile_append_of_pos h₁, List.dropWhile_append]
  split
  · rename_i he
    rw [List.dropWhile_eq_nil_iff.2 h₂]
    have : s.dropWhile Char.isWhitespace = [] := by
      simpa [List.isEmpty_iff] using he
    rw [this]
  · exact rdropWhile_append_all _ _ _ h₂

/-! ### Loader lemmas: chunk boundaries are invisible in the final frame -/

theorem processRows_nil (f : Bool) (kc : Str) (e : List Str) :
    processRows f kc e [] = [] := by
  cases f <;> rfl

theorem processRows_append (f : Bool) (kc : Str) (e : List Str) (a b : List RawRow) :
    processRows f kc e (a ++ b) =
      processRows f kc e a ++ processRows f kc e b := by
  unfold processRows
  cases f <;> simp [List.filterMap_append, List.filter_append]

theorem chunksOfAux_flatten (n : Nat) (hn : 0 < n) (f : Bool) (kc : Str) (e : List Str) :
    ∀ (fuel : Nat) (rows : List RawRow), rows.length ≤ fuel →
      ((chunksOfAux n fuel rows).map (processRows f kc e)).flatten =
        processRows f kc e rows := by
  intro fuel
  induction fuel with
  | zero =>
    intro rows h
    have hr : rows = [] := List.length_eq_zero.mp (Nat.le_zero.mp h)
    subst hr
    simp [chunksOfAux, processRows_nil]
  | succ fuel ih =>
    intro rows h
    cases rows with
    | nil => simp [chunksOfAux, processRows_nil]
    | cons x xs =>
      simp only [chunksOfAux, List.map_cons, List.flatten_cons]
      rw [ih _ (by simp only [List.length_drop]; simp at h ⊢; omega),
        ← processRows_append, List.take_append_drop]

theorem flatten_filter_nonempty (l : List (List α)) :
    (l.filter (fun c => !c.isEmpty)).flatten = l.flatten := by
  induction l with
  | nil => rfl
  | cons c cs ih =>
    cases hc : c.isEmpty
    · simp [List.filter_cons, hc, ih]
    · have hce : c = [] := by simpa using hc
      subst hce
      simp [List.filter_cons, ih]

theorem filter_nonempty_eq_nil (l : List (List α)) :
    l.filter (fun c => !c.isEmpty) = [] ↔ l.flatten = [] := by
  induction l with
  | nil => simp
  | cons c cs ih =>
    cases hc : c.isEmpty
    · have hne : c ≠ [] := by simpa using hc
      simp [List.filter_cons, hc, hne, ih]
    · have hce : c = [] := by simpa using hc
      subst hce
      simp [List.filter_cons, ih]

theorem load_eq (cfg : LoadConfig) (header : List Str) (rows : List RawRow) (kc : Str)
    (hn : 0 < cfg.chunkSize)
    (hk : findIsrcColumn header = some kc)
    (hmem : kc ∈ getEssentialColumns cfg.optimizeColumns cfg.keywords header)
    (hm : rows.any RawRow.isMalformed = false) :
    load cfg header rows =
      if (processRows cfg.filterNoIsrc kc
            (getEssentialColumns cfg.optimizeColumns cfg.keywords header) rows).isEmpty
      then LoadResult.failure
      else LoadResult.loaded
        ⟨getEssentialColumns cfg.optimizeColumns cfg.keywords header ++ [ISRC_CLEAN],
          processRows cfg.filterNoIsrc kc
            (getEssentialColumns cfg.optimizeColumns cfg.keywords header) rows⟩ := by
  have hiff :
      ((chunksOf cfg.chunkSize rows).map
        (processRows cfg.filterNoIsrc kc
          (getEssentialColumns cfg.optimizeColumns cfg.keywords header))).filter
            (fun c => !c.isEmpty) = [] ↔
      processRows cfg.filterNoIsrc kc
        (getEssentialColumns cfg.optimizeColumns cfg.keywords header) rows = [] := by
    rw [filter_nonempty_eq_nil]
    unfold chunksOf
    rw [chunksOfAux_flatten cfg.chunkSize hn _ _ _ rows.length rows (Nat.le_refl _)]
  have hfl :
      (((chunksOf cfg.chunkSize rows).map
          (processRows cfg.filterNoIsrc kc
            (getEssentialColumns cfg.optimizeColumns cfg.keywords header))).filter
        (fun c => !c.isEmpty)).flatten =
      processRows cfg.filterNoIsrc kc
        (getEssentialColumns cfg.optimizeColumns cfg.keywords header) rows := by
    rw [flatten_filter_nonempty]
    unfold chunksOf
    exact chunksOfAux_flatten cfg.chunkSize hn _ _ _ rows.length rows (Nat.le_refl _)
  unfold load
  rw [hk]
  dsimp only
  rw [if_neg (by simp [hmem]), if_neg (by simp [hm])]
  by_cases hp : processRows cfg.filterNoIsrc kc
      (getEssentialColumns cfg.optimizeColumns cfg.keywords header) rows = []
  · rw [if_pos (by simp only [List.isEmpty_iff]; exact hiff.mpr hp),
      if_pos (by simp only [List.isEmpty_iff]; exact hp)]
  · rw [if_neg (by simp only [List.isEmpty_iff]; exact fun h => hp (hiff.mp h)),
      if_neg (by simp only [List.isEmpty_iff]; exact hp), hfl]

theorem load_malformed (cfg : LoadConfig) (header : List Str) (rows : List RawRow)
    (hm : rows.any RawRow.isMalformed = true) :
    load cfg header rows = LoadResult.failure := by
  unfold load
  cases hk : findIsrcColumn header with
  | none =>
    dsimp only
    rw [if_pos hm]
  | some kc =>
    dsimp only
    by_cases hmem : kc ∈ getEssentialColumns cfg.optimizeColumns cfg.keywords header
    · rw [if_neg (by simp [hmem]), if_pos hm]
    · rw [if_pos (by simp [hmem])]

theorem load_key_not_selected (cfg : LoadConfig) (header : List Str)
    (rows : List RawRow) (kc : Str)
    (hk : findIsrcColumn header = some kc)
    (hmem : kc ∉ getEssentialColumns cfg.optimizeColumns cfg.keywords header) :
    load cfg header rows = LoadResult.failure := by
  unfold load
  rw [hk]
  dsimp only
  rw [if_pos (by simp [hmem])]

/-! ### Matcher lemmas -/

theorem cross_reference_fst (catalog : List CatalogTrack) (df : LoadedDf) :
    (cross_reference catalog (some df)).1 =
      if df.rows.isEmpty then []
      else (catalog.filter (fun t => t.isrcClean.isSome)).filterMap (matchTrack df) := by
  unfold cross_reference
  by_cases hc : catalog = []
  · subst hc
    simp
  · have hc' : catalog.isEmpty = false := by rw [List.isEmpty_eq_false]; exact hc
    by_cases hr : df.rows = []
    · have hr' : df.rows.isEmpty = true := by rw [List.isEmpty_iff]; exact hr
      simp [hc', hr']
    · have hr' : df.rows.isEmpty = false := by rw [List.isEmpty_eq_false]; exact hr
      by_cases hw : catalog.filter (fun t => t.isrcClean.isSome) = []
      · have hw' : (catalog.filter (fun t => t.isrcClean.isSome)).isEmpty = true := by
          rw [List.isEmpty_iff]; exact hw
        simp [hc', hr', hw', hw]
      · have hw' : (catalog.filter (fun t => t.isrcClean.isSome)).isEmpty = false := by
          rw [List.isEmpty_eq_false]; exact hw
        simp [hc', hr', hw']

theorem cross_reference_full (catalog : List CatalogTrack) (df : LoadedDf)
    (hr : df.rows ≠ []) (hw : catalog.filter (fun t => t.isrcClean.isSome) ≠ []) :
    cross_reference catalog (some df) =
      ((catalog.filter (fun t => t.isrcClean.isSome)).filterMap (matchTrack df),
        some
          { totalCatalogTracks := catalog.length
            catalogWithIsrc := (catalog.filter (fun t => t.isrcClean.isSome)).length
            matchesFound :=
              ((catalog.filter (fun t => t.isrcClean.isSome)).filterMap
                (matchTrack df)).length
            matchRate :=
              (((catalog.filter (fun t => t.isrcClean.isSome)).filterMap
                  (matchTrack df)).length : ℚ) /
                ((catalog.filter (fun t => t.isrcClean.isSome)).length : ℚ) * 100
            uniqueAlbums := (catalog.map (fun t => t.albumName)).dedup.length }) := by
  have hc : catalog ≠ [] := by
    intro h
    exact hw (by simp [h])
  have hc' : catalog.isEmpty = false := by rw [List.isEmpty_eq_false]; exact hc
  have hr' : df.rows.isEmpty = false := by rw [List.isEmpty_eq_false]; exact hr
  have hw' : (catalog.filter (fun t => t.isrcClean.isSome)).isEmpty = false := by
    rw [List.isEmpty_eq_false]; exact hw
  have hlen : 0 < (catalog.filter (fun t => t.isrcClean.isSome)).length :=
    List.length_pos.mpr hw
  unfold cross_reference
  simp [hc', hr', hw', hlen]

theorem matchTrack_first (df : LoadedDf) (t : CatalogTrack) (k : Str)
    (ht : t.isrcClean = some k) (r : ProcRow) (rest : List ProcRow)
    (hl : dfLoc df k = r :: rest) :
    matchTrack df t = some (mkMatchRecord df.cols t r) := by
  unfold matchTrack
  rw [ht]
  dsimp only
  rw [hl]
  rfl

theorem loaded_rows_eq (cfg : LoadConfig) (header : List Str) (rows : List RawRow)
    (df : LoadedDf) (hn : 0 < cfg.chunkSize)
    (hload : load cfg header rows = LoadResult.loaded df) :
    ∃ kc, findIsrcColumn header = some kc ∧
      df.rows = processRows cfg.filterNoIsrc kc
        (getEssentialColumns cfg.optimizeColumns cfg.keywords header) rows := by
  cases hk : findIsrcColumn header with
  | none =>
    unfold load at hload
    rw [hk] at hload
    dsimp only at hload
    split at hload <;> simp at hload
  | some kc =>
    refine ⟨kc, rfl, ?_⟩
    by_cases hmem : kc ∈ getEssentialColumns cfg.optimizeColumns cfg.keywords header
    · by_cases hm : rows.any RawRow.isMalformed = true
      · rw [load_malformed cfg header rows hm] at hload
        exact absurd hload (by simp)
      · rw [load_eq cfg header rows kc hn hk hmem (by simpa using hm)] at hload
        split at hload
        · exact absurd hload (by simp)
        · have hdf := LoadResult.loaded.inj hload
          rw [← hdf]
    · rw [load_key_not_selected cfg header rows kc hk hmem] at hload
      exact absurd hload (by simp)

theorem processRows_cleanKey_norm (f : Bool) (kc : Str) (e : List Str)
    (rows : List RawRow) (r : ProcRow) (hr : r ∈ processRows f kc e rows) :
    ∃ v, r.cleanKey = normalizeKey v := by
  unfold processRows at hr
  have hr' : r ∈ (rows.filterMap RawRow.cells?).map (fun cs =>
      ProcRow.mk (projectCells e cs) (normalizeKey (getCell (projectCells e cs) kc))) := by
    cases f
    · simpa using hr
    · simp only [if_pos] at hr
      exact (List.mem_filter.mp hr).1
  obtain ⟨cs, _, hcs⟩ := List.mem_map.mp hr'
  exact ⟨getCell (projectCells e cs) kc, by rw [← hcs]⟩

/-! ### Claim theorems -/

/-- C6: the Key Normalizer is a total function by construction, maps an
absent/null value to the empty string, and is idempotent.  (Key equality is
byte equality of the canonical forms by definition of the embedding: keys
are compared with `=` on `normalizeKey` outputs.) -/
theorem c6_normalizer_idempotent :
    normalizeKey none = [] ∧
    ∀ x : Option Str, normalizeKey (some (normalizeKey x)) = normalizeKey x := by
  constructor
  · rfl
  · intro x
    unfold normalizeKey
    simp only [Option.getD_some]
    rw [stripStr_upperStr, upperStr_upperStr, stripStr_stripStr]

/-- C7: the Column Selector returns all columns unchanged when pruning is
disabled; when enabled it returns exactly the columns whose lowercased name
contains an allowlist keyword, falling back to the first 10 columns when
none matches; on a non-empty input it never returns an empty list. -/
theorem c7_column_selector (opt : Bool) (kw : List Str) (cols : List Str)
    (h : cols ≠ []) :
    (opt = false → getEssentialColumns opt kw cols = cols) ∧
    (opt = true →
      (cols.filter (fun col => kw.any (fun k => subStr k (lowerStr col))) ≠ [] →
        getEssentialColumns opt kw cols =
          cols.filter (fun col => kw.any (fun k => subStr k (lowerStr col)))) ∧
      (cols.filter (fun col => kw.any (fun k => subStr k (lowerStr col))) = [] →
        getEssentialColumns opt kw cols = cols.take 10)) ∧
    getEssentialColumns opt kw cols ≠ [] := by
  cases opt with
  | false =>
    refine ⟨fun _ => ?_, fun hcontra => absurd hcontra (by simp), ?_⟩
    · simp [getEssentialColumns]
    · simpa [getEssentialColumns] using h
  | true =>
    by_cases hfil :
        cols.filter (fun col => kw.any (fun k => subStr k (lowerStr col))) = []
    · have hg : getEssentialColumns true kw cols = cols.take 10 := by
        unfold getEssentialColumns
        rw [if_neg (by simp), if_pos (by rw [List.isEmpty_iff]; exact hfil)]
      refine ⟨fun hcontra => absurd hcontra (by simp),
        fun _ => ⟨fun hne => absurd hfil hne, fun _ => hg⟩, ?_⟩
      rw [hg]
      intro hcontra
      rcases List.take_eq_nil_iff.mp hcontra with h10 | hnil
      · exact absurd h10 (by omega)
      · exact h hnil
    · have hg : getEssentialColumns true kw cols =
          cols.filter (fun col => kw.any (fun k => subStr k (lowerStr col))) := by
        unfold getEssentialColumns
        rw [if_neg (by simp), if_neg (by rw [List.isEmpty_iff]; exact hfil)]
      refine ⟨fun hcontra => absurd hcontra (by simp),
        fun _ => ⟨fun _ => hg, fun hc => absurd hc hfil⟩, ?_⟩
      rw [hg]
      exact hfil

/-- C7 witness: concrete instance of the Column Selector theorem. -/
theorem c7_witness :
    getEssentialColumns true ESSENTIAL_KEYWORDS headerW ≠ [] :=
  (c7_column_selector true ESSENTIAL_KEYWORDS headerW (by decide)).2.2

/-- C3 counterexample: invoked with an empty catalog and a loaded non-empty
reference frame, the Matcher returns an empty statistics map (`{}`), not the
zero-valued statistics record the claim describes. -/
theorem c3_counterexample :
    (cross_reference [] (some dfDup)).2 = none ∧
    (none : Option Stats) ≠ some zeroStats := by
  constructor
  · rfl
  · decide

/-- C3 (amended): with an empty catalog, an absent (non-`Loaded`) reference
frame, or a loaded frame with no rows, the Matcher returns an empty match
list together with an empty statistics map (it does not fail, but the
statistics are absent rather than zero-valued). -/
theorem c3_empty_inputs (catalog : List CatalogTrack) (dfU : Option LoadedDf) :
    (catalog = [] → cross_reference catalog dfU = ([], none)) ∧
    cross_reference catalog none = ([], none) ∧
    (∀ df : LoadedDf, df.rows = [] → cross_reference catalog (some df) = ([], none)) := by
  refine ⟨?_, ?_, ?_⟩
  · intro h
    subst h
    rfl
  · by_cases hc : catalog = []
    · subst hc
      rfl
    · unfold cross_reference
      rw [if_neg (by rw [List.isEmpty_iff]; exact hc)]
  · intro df hdf
    by_cases hc : catalog = []
    · subst hc
      rfl
    · unfold cross_reference
      rw [if_neg (by rw [List.isEmpty_iff]; exact hc)]
      dsimp only
      rw [if_pos (by rw [List.isEmpty_iff]; exact hdf)]

/-- C3 witness: concrete instances of the three empty-input cases. -/
theorem c3_witness :
    cross_reference [] (some dfNoKey) = ([], none) ∧
    cross_reference [trackW] none = ([], none) ∧
    cross_reference [trackW] (some ⟨colsW, []⟩) = ([], none) :=
  ⟨(c3_empty_inputs [] (some dfNoKey)).1 rfl,
   (c3_empty_inputs [trackW] none).2.1,
   (c3_empty_inputs [trackW] (some ⟨colsW, []⟩)).2.2 ⟨colsW, []⟩ rfl⟩

/-- C2 counterexample: a non-empty catalog whose every track lacks a valid
key, matched against a loaded non-empty reference frame: the number of
tracks with a valid key is 0, and the Matcher returns an absent statistics
map — `match_rate` is not present at all, hence not the value 0 the claim
requires. -/
theorem c2_counterexample :
    ([trackNoKey].filter (fun x => x.isrcClean.isSome) = []) ∧
    (cross_reference [trackNoKey] (some dfDup)).2 = none := by
  constructor
  · decide
  · decide

/-- C2 (amended): whenever at least one catalog track has a valid key (and
the reference frame is loaded and non-empty), the returned statistics
satisfy `match_rate = matches_found / tracks_with_key * 100`; when no track
has a valid key, the Matcher returns an empty statistics map, in which
`match_rate` is absent (rather than 0, NaN or an error). -/
theorem c2_match_rate_formula (catalog : List CatalogTrack) (df : LoadedDf)
    (hr : df.rows ≠ []) :
    (catalog.filter (fun x => x.isrcClean.isSome) ≠ [] →
      (cross_reference catalog (some df)).2 =
        some
          { totalCatalogTracks := catalog.length
            catalogWithIsrc := (catalog.filter (fun x => x.isrcClean.isSome)).length
            matchesFound :=
              ((catalog.filter (fun x => x.isrcClean.isSome)).filterMap
                (matchTrack df)).length
            matchRate :=
              (((catalog.filter (fun x => x.isrcClean.isSome)).filterMap
                  (matchTrack df)).length : ℚ) /
                ((catalog.filter (fun x => x.isrcClean.isSome)).length : ℚ) * 100
            uniqueAlbums := (catalog.map (fun x => x.albumName)).dedup.length }) ∧
    (catalog ≠ [] → catalog.filter (fun x => x.isrcClean.isSome) = [] →
      (cross_reference catalog (some df)).2 = none) := by
  constructor
  · intro hw
    rw [cross_reference_full catalog df hr hw]
  · intro hc hw
    unfold cross_reference
    rw [if_neg (by rw [List.isEmpty_iff]; exact hc)]
    dsimp only
    rw [if_neg (by rw [List.isEmpty_iff]; exact hr),
      if_pos (by rw [List.isEmpty_iff]; exact hw)]

/-- C2 witness: concrete instance of the match-rate formula. -/
theorem c2_witness :
    (cross_reference [trackW] (some dfDup)).2 =
      some
        { totalCatalogTracks := ([trackW] : List CatalogTrack).length
          catalogWithIsrc := ([trackW].filter (fun x => x.isrcClean.isSome)).length
          matchesFound :=
            (([trackW].filter (fun x => x.isrcClean.isSome)).filterMap
              (matchTrack dfDup)).length
          matchRate :=
            ((([trackW].filter (fun x => x.isrcClean.isSome)).filterMap
                (matchTrack dfDup)).length : ℚ) /
              (([trackW].filter (fun x => x.isrcClean.isSome)).length : ℚ) * 100
          uniqueAlbums := ([trackW].map (fun x => x.albumName)).dedup.length } :=
  (c2_match_rate_formula [trackW] dfDup (by decide)).1 (by decide)

/-- C5: a catalog track whose normalized key is empty is cleaned to `pd.NA`
by the catalog collaborator and then excluded from matching entirely: it
contributes no `MatchRecord`, no index lookup, and is not counted among the
tracks with a valid key. -/
theorem c5_empty_key_excluded (t : CatalogTrack) (c₁ c₂ : List CatalogTrack)
    (df : LoadedDf) (raw : Str) (ht : t.isrcClean = none) :
    (upperStr (stripStr raw) = [] → cleanIsrc raw = none) ∧
    (cross_reference (c₁ ++ t :: c₂) (some df)).1 =
      (cross_reference (c₁ ++ c₂) (some df)).1 ∧
    ((c₁ ++ t :: c₂).filter (fun x => x.isrcClean.isSome)).length =
      ((c₁ ++ c₂).filter (fun x => x.isrcClean.isSome)).length := by
  have hfe : (c₁ ++ t :: c₂).filter (fun x => x.isrcClean.isSome) =
      (c₁ ++ c₂).filter (fun x => x.isrcClean.isSome) := by
    rw [List.filter_append, List.filter_append,
      List.filter_cons_of_neg (by simp [ht])]
  refine ⟨?_, ?_, by rw [hfe]⟩
  · intro h
    simp [cleanIsrc, h]
  · rw [cross_reference_fst, cross_reference_fst, hfe]

/-- C5 witness: concrete instance with a whitespace-only raw key. -/
theorem c5_witness :
    cleanIsrc ("  ".toList) = none ∧
    (cross_reference ([trackW] ++ trackNoKey :: []) (some dfDup)).1 =
      (cross_reference ([trackW] ++ []) (some dfDup)).1 ∧
    (([trackW] ++ trackNoKey :: []).filter
        (fun (x : CatalogTrack) => x.isrcClean.isSome)).length =
      (([trackW] ++ []).filter (fun (x : CatalogTrack) => x.isrcClean.isSome)).length :=
  ⟨(c5_empty_key_excluded trackNoKey [trackW] [] dfDup ("  ".toList) (by decide)).1
      (by decide),
   (c5_empty_key_excluded trackNoKey [trackW] [] dfDup ("  ".toList) (by decide)).2.1,
   (c5_empty_key_excluded trackNoKey [trackW] [] dfDup ("  ".toList) (by decide)).2.2⟩

/-- C9: when a key column is identified and retained but, after per-chunk
filtering, no row survives in any chunk, the load reports failure (the
`pd.concat` of an empty chunk list raises, caught by the blanket handler),
exposing no frame at all rather than an empty loaded one. -/
theorem c9_empty_result_load_fails (cfg : LoadConfig) (header : List Str)
    (rows : List RawRow) (kc : Str)
    (hn : 0 < cfg.chunkSize)
    (hk : findIsrcColumn header = some kc)
    (hmem : kc ∈ getEssentialColumns cfg.optimizeColumns cfg.keywords header)
    (hp : processRows cfg.filterNoIsrc kc
        (getEssentialColumns cfg.optimizeColumns cfg.keywords header) rows = []) :
    load cfg header rows = LoadResult.failure := by
  by_cases hm : rows.any RawRow.isMalformed = true
  · exact load_malformed cfg header rows hm
  · rw [load_eq cfg header rows kc hn hk hmem (by simpa using hm),
      if_pos (by rw [List.isEmpty_iff]; exact hp)]

/-- C9 witness: a dataset whose single row has a missing key, loaded with the
invalid-row filter on. -/
theorem c9_witness : load (cfgW 1 true) headerW rowsNoKey = LoadResult.failure :=
  c9_empty_result_load_fails (cfgW 1 true) headerW rowsNoKey colIsrc
    (by decide) (by decide) (by decide) (by decide)

/-- C4 counterexample: a dataset with one well-formed row followed by one
line the reader cannot parse: the whole load aborts with failure, instead of
dropping the bad row and continuing as the claim states. -/
theorem c4_counterexample :
    load (cfgW 2 true) headerW [rowW (some "ABC000") "1", RawRow.malformed] =
      LoadResult.failure := by
  decide

/-- C4 (amended): a row whose key value is missing is dropped while ingestion
of the remaining rows continues (with the invalid-row filter on), but a row
that fails to parse under the reader aborts the whole load, which is
reported as a failure with no partial index, exactly like a storage
failure. -/
theorem c4_row_failure_policy (cfg : LoadConfig) (header : List Str)
    (rows rows₁ rows₂ : List RawRow) (cells : List (Str × Option Str)) (kc : Str)
    (hn : 0 < cfg.chunkSize) :
    (rows.any RawRow.isMalformed = true → load cfg header rows = LoadResult.failure) ∧
    (cfg.filterNoIsrc = true →
      findIsrcColumn header = some kc →
      getCell (projectCells
        (getEssentialColumns cfg.optimizeColumns cfg.keywords header) cells) kc = none →
      load cfg header (rows₁ ++ RawRow.ok cells :: rows₂) =
        load cfg header (rows₁ ++ rows₂)) := by
  constructor
  · exact load_malformed cfg header rows
  · intro hf hk hcell
    by_cases hmem : kc ∈ getEssentialColumns cfg.optimizeColumns cfg.keywords header
    · by_cases hm : (rows₁ ++ rows₂).any RawRow.isMalformed = true
      · have hm' : (rows₁ ++ RawRow.ok cells :: rows₂).any RawRow.isMalformed = true := by
          simp only [List.any_append, List.any_cons, RawRow.isMalformed,
            Bool.false_or] at hm ⊢
          exact hm
        rw [load_malformed _ _ _ hm', load_malformed _ _ _ hm]
      · have hmf : (rows₁ ++ rows₂).any RawRow.isMalformed = false := by simpa using hm
        have hm' : (rows₁ ++ RawRow.ok cells :: rows₂).any RawRow.isMalformed = false := by
          simp only [List.any_append, List.any_cons, RawRow.isMalformed,
            Bool.false_or] at hmf ⊢
          exact hmf
        rw [load_eq cfg header _ kc hn hk hmem hm',
          load_eq cfg header _ kc hn hk hmem hmf]
        have hone : processRows cfg.filterNoIsrc kc
            (getEssentialColumns cfg.optimizeColumns cfg.keywords header)
            [RawRow.ok cells] = [] := by
          rw [hf]
          unfold processRows
          simp [RawRow.cells?, hcell, normalizeKey]
          rfl
        have h2 : RawRow.ok cells :: rows₂ = [RawRow.ok cells] ++ rows₂ := rfl
        rw [processRows_append, h2, processRows_append, hone, List.nil_append,
          ← processRows_append]
    · rw [load_key_not_selected cfg header _ kc hk hmem,
        load_key_not_selected cfg header _ kc hk hmem]

/-- C4 witness: concrete instances of both halves of the row-failure policy. -/
theorem c4_witness :
    load (cfgW 2 true) headerW [rowW (some "ABC000") "1", RawRow.malformed] =
      LoadResult.failure ∧
    load (cfgW 2 true) headerW
        ([rowW (some "ABC000") "1"] ++
          RawRow.ok [(colIsrc, none), (colShare, some ("9".toList))] :: []) =
      load (cfgW 2 true) headerW ([rowW (some "ABC000") "1"] ++ []) :=
  ⟨(c4_row_failure_policy (cfgW 2 true) headerW
      [rowW (some "ABC000") "1", RawRow.malformed] [rowW (some "ABC000") "1"] []
      [(colIsrc, none), (colShare, some ("9".toList))] colIsrc (by decide)).1
      (by decide),
   (c4_row_failure_policy (cfgW 2 true) headerW
      [rowW (some "ABC000") "1", RawRow.malformed] [rowW (some "ABC000") "1"] []
      [(colIsrc, none), (colShare, some ("9".toList))] colIsrc (by decide)).2
      rfl (by decide) (by decide)⟩

/-- C1: the loaded frame does not depend on the chunk size, and when two or
more reference rows share a normalized key, a catalog track with that key
yields exactly one `MatchRecord`, whose reference fields come from the first
stored row for that key. -/
theorem c1_duplicate_first_wins
    (cfg cfg' : LoadConfig) (header : List Str) (rows : List RawRow)
    (df : LoadedDf) (k : Str) (t : CatalogTrack) (c₁ c₂ : List CatalogTrack)
    (r : ProcRow) (rest : List ProcRow)
    (hn : 0 < cfg.chunkSize) (hn' : 0 < cfg'.chunkSize)
    (ho : cfg.optimizeColumns = cfg'.optimizeColumns)
    (hfi : cfg.filterNoIsrc = cfg'.filterNoIsrc)
    (hkw : cfg.keywords = cfg'.keywords) :
    load cfg header rows = load cfg' header rows ∧
    (load cfg header rows = LoadResult.loaded df →
      dfLoc df k = r :: rest →
      rest ≠ [] →
      t.isrcClean = some k →
      (cross_reference (c₁ ++ t :: c₂) (some df)).1 =
        (c₁.filter (fun x => x.isrcClean.isSome)).filterMap (matchTrack df) ++
          mkMatchRecord df.cols t r ::
            (c₂.filter (fun x => x.isrcClean.isSome)).filterMap (matchTrack df)) := by
  constructor
  · cases hk : findIsrcColumn header with
    | none =>
      unfold load
      rw [hk]
    | some kc =>
      by_cases hmem : kc ∈ getEssentialColumns cfg.optimizeColumns cfg.keywords header
      · by_cases hm : rows.any RawRow.isMalformed = true
        · rw [load_malformed cfg header rows hm, load_malformed cfg' header rows hm]
        · rw [load_eq cfg header rows kc hn hk hmem (by simpa using hm),
            load_eq cfg' header rows kc hn' hk (by rw [← ho, ← hkw]; exact hmem)
              (by simpa using hm), ho, hfi, hkw]
      · rw [load_key_not_selected cfg header rows kc hk hmem,
          load_key_not_selected cfg' header rows kc hk (by rw [← ho, ← hkw]; exact hmem)]
  · intro _ hloc hrest ht
    have hre : df.rows ≠ [] := by
      intro h
      rw [dfLoc, h] at hloc
      exact absurd hloc (by simp)
    rw [cross_reference_fst, if_neg (by rw [List.isEmpty_iff]; exact hre),
      List.filter_append, List.filter_cons_of_pos (by simp [ht])]
    simp only [List.filterMap_append, List.filterMap_cons,
      matchTrack_first df t k ht r rest hloc]

/-- C1 witness: the duplicate-key scenario of the spec, loaded with chunk
sizes 1 and 2. -/
theorem c1_witness :
    load (cfgW 1 true) headerW rowsDup = load (cfgW 2 true) headerW rowsDup ∧
    (cross_reference ([] ++ trackW :: []) (some dfDup)).1 =
      (([] : List CatalogTrack).filter (fun x => x.isrcClean.isSome)).filterMap
          (matchTrack dfDup) ++
        mkMatchRecord dfDup.cols trackW (procW (some "XYZ000") "1" "XYZ000") ::
          (([] : List CatalogTrack).filter (fun x => x.isrcClean.isSome)).filterMap
            (matchTrack dfDup) :=
  ⟨(c1_duplicate_first_wins (cfgW 1 true) (cfgW 2 true) headerW rowsDup dfDup
      ("XYZ000".toList) trackW [] [] (procW (some "XYZ000") "1" "XYZ000")
      [procW (some " xyz000 ") "2" "XYZ000"] (by decide) (by decide) rfl rfl rfl).1,
   (c1_duplicate_first_wins (cfgW 1 true) (cfgW 2 true) headerW rowsDup dfDup
      ("XYZ000".toList) trackW [] [] (procW (some "XYZ000") "1" "XYZ000")
      [procW (some " xyz000 ") "2" "XYZ000"] (by decide) (by decide) rfl rfl rfl).2
      (by decide) (by decide) (by decide) (by decide)⟩

/-- C8 counterexample: with the invalid-row filter disabled, a row with an
empty clean key is present in the loaded frame, and a direct key search with
the empty-string query returns it — contradicting "never found by lookup". -/
theorem c8_counterexample :
    load (cfgW 2 false) headerW rowsNoKey = LoadResult.loaded dfNoKey ∧
    dfNoKey.rows = [procW none "9" ""] ∧
    search_isrc (some dfNoKey) [] ≠ [] := by
  refine ⟨by decide, by decide, by decide⟩

/-- C8 (amended): with the invalid-row filter on, every indexed row has a
non-empty clean key; with any filter setting, the Matcher never surfaces
empty-key rows for catalogs whose tracks never carry a `some ""` key — and
the catalog collaborator indeed never produces one; only a direct key search
whose query normalizes to the empty string can return such rows. -/
theorem c8_index_invariant (cfg : LoadConfig) (header : List Str)
    (rows : List RawRow) (df : LoadedDf) (catalog : List CatalogTrack)
    (hn : 0 < cfg.chunkSize)
    (hload : load cfg header rows = LoadResult.loaded df) :
    (cfg.filterNoIsrc = true → ∀ r ∈ df.rows, r.cleanKey ≠ []) ∧
    ((∀ t ∈ catalog, t.isrcClean ≠ some []) →
      (cross_reference catalog (some df)).1 =
        (cross_reference catalog
          (some ⟨df.cols, df.rows.filter (fun r => !r.cleanKey.isEmpty)⟩)).1) ∧
    (∀ raw : Str, cleanIsrc raw ≠ some []) := by
  obtain ⟨kc, hk, hrows⟩ := loaded_rows_eq cfg header rows df hn hload
  refine ⟨?_, ?_, ?_⟩
  · intro hfil r hr
    rw [hrows] at hr
    unfold processRows at hr
    rw [hfil] at hr
    simp only [if_pos] at hr
    have hb := (List.mem_filter.mp hr).2
    simpa [List.isEmpty_iff] using hb
  · intro hcat
    rw [cross_reference_fst, cross_reference_fst]
    by_cases hr0 : df.rows = []
    · simp [hr0]
    · rw [if_neg (by rw [List.isEmpty_iff]; exact hr0)]
      by_cases hr1 : df.rows.filter (fun r => !r.cleanKey.isEmpty) = []
      · rw [if_pos (by rw [List.isEmpty_iff]; exact hr1)]
        rw [List.filterMap_eq_nil_iff]
        intro t' ht'
        have htc := (List.mem_filter.mp ht').1
        cases hts : t'.isrcClean with
        | none => simp [matchTrack, hts]
        | some k' =>
          have hk' : k' ≠ [] := by
            intro h
            exact hcat t' htc (by rw [hts, h])
          have hempty : ∀ x ∈ df.rows, x.cleanKey = [] := by
            intro x hx
            have := List.filter_eq_nil_iff.mp hr1 x hx
            simpa [List.isEmpty_iff] using this
          have hloc : dfLoc df k' = [] := by
            rw [dfLoc, List.filter_eq_nil_iff]
            intro x hx
            simp [hempty x hx]
            exact hk'
          simp [matchTrack, hts, hloc]
      · rw [if_neg (by rw [List.isEmpty_iff]; exact hr1)]
        apply List.filterMap_congr
        intro t' ht'
        have htc := (List.mem_filter.mp ht').1
        cases hts : t'.isrcClean with
        | none => simp [matchTrack, hts]
        | some k' =>
          have hk' : k' ≠ [] := by
            intro h
            exact hcat t' htc (by rw [hts, h])
          have hfloc : dfLoc ⟨df.cols, df.rows.filter (fun r => !r.cleanKey.isEmpty)⟩ k' =
              dfLoc df k' := by
            unfold dfLoc
            dsimp only
            rw [List.filter_filter]
            apply List.filter_congr
            intro x _
            by_cases hx : x.cleanKey = k'
            · simp [hx, List.isEmpty_iff, hk']
            · simp [hx]
          simp only [matchTrack, hts, hfloc]
  · intro raw h
    unfold cleanIsrc at h
    dsimp only at h
    split at h
    · exact absurd h (by simp)
    · rename_i hne
      rw [Option.some.injEq] at h
      rw [List.isEmpty_iff] at hne
      exact hne h

/-- C8 witness: the filter-on invariant on the duplicate-key frame, and the
Matcher-restriction equality on the filter-off frame holding an empty-key
row. -/
theorem c8_witness :
    (∀ r ∈ dfDup.rows, r.cleanKey ≠ []) ∧
    (cross_reference [trackW] (some dfNoKey)).1 =
      (cross_reference [trackW]
        (some ⟨dfNoKey.cols, dfNoKey.rows.filter (fun r => !r.cleanKey.isEmpty)⟩)).1 :=
  ⟨(c8_index_invariant (cfgW 1 true) headerW rowsDup dfDup [trackW]
      (by decide) (by decide)).1 rfl,
   (c8_index_invariant (cfgW 2 false) headerW rowsNoKey dfNoKey [trackW]
      (by decide) (by decide)).2.1 (by decide)⟩

/-- C10: the key search normalizes its query with the same trim-and-uppercase
rule as ingestion: a query equal to a stored key up to surrounding
whitespace and letter case returns exactly the stored rows for that key; and
with no frame loaded the search returns an empty result instead of failing. -/
theorem c10_search_normalizes (cfg : LoadConfig) (header : List Str)
    (rows : List RawRow) (df : LoadedDf) (k : Str) (s w₁ w₂ : Str)
    (hn : 0 < cfg.chunkSize)
    (hload : load cfg header rows = LoadResult.loaded df)
    (h₁ : ∀ a ∈ w₁, a.isWhitespace)
    (h₂ : ∀ a ∈ w₂, a.isWhitespace)
    (hs : upperStr s = k)
    (hk : dfLoc df k ≠ []) :
    (∀ q : Str, search_isrc none q = []) ∧
    search_isrc (some df) (w₁ ++ s ++ w₂) = dfLoc df k := by
  refine ⟨fun q => rfl, ?_⟩
  obtain ⟨kc, hkc, hrows⟩ := loaded_rows_eq cfg header rows df hn hload
  obtain ⟨r, hrmem, hrkey⟩ : ∃ r ∈ df.rows, r.cleanKey = k := by
    cases hfl : dfLoc df k with
    | nil => exact absurd hfl hk
    | cons r rs =>
      have hrin : r ∈ dfLoc df k := by
        rw [hfl]
        exact List.mem_cons_self r rs
      have := List.mem_filter.mp hrin
      exact ⟨r, this.1, by simpa using this.2⟩
  obtain ⟨v, hv⟩ : ∃ v, r.cleanKey = normalizeKey v := by
    apply processRows_cleanKey_norm cfg.filterNoIsrc kc
      (getEssentialColumns cfg.optimizeColumns cfg.keywords header) rows r
    rw [← hrows]
    exact hrmem
  have hstrip : stripStr k = k := by
    rw [← hrkey, hv]
    unfold normalizeKey
    rw [stripStr_upperStr, stripStr_stripStr]
  show dfLoc df (upperStr (stripStr (w₁ ++ s ++ w₂))) = dfLoc df k
  rw [stripStr_pad s w₁ w₂ h₁ h₂, ← stripStr_upperStr, hs, hstrip]

/-- C10 witness: the duplicate-key frame searched with a padded, mixed-case
query. -/
theorem c10_witness :
    (search_isrc none ("XYZ000".toList) = []) ∧
    search_isrc (some dfDup) ("  xYz000 ".toList) = dfLoc dfDup ("XYZ000".toList) := by
  have h := c10_search_normalizes (cfgW 2 true) headerW rowsDup dfDup
    ("XYZ000".toList) ("xYz000".toList) ("  ".toList) (" ".toList)
    (by decide) (by decide) (by decide) (by decide) (by decide) (by decide)
  exact ⟨h.1 ("XYZ000".toList), h.2⟩

end ART
